import Mathlib

/-!
Verification of the GAF (GO Annotation File) streaming parser and validator
(`goatools/anno/init/reader_gaf.py`).

The Python source is shallowly embedded: strings are Lean `String`s manipulated
through their character lists, Python sets of strings are `Finset String`,
Python exceptions are the `PyErr` error type threaded through `Except`, and the
mutable reader state (`GafData`) is passed explicitly.  In-place updates of the
per-line field list (`flds[i] = ...`) are modelled functionally: each index is
written at most once and read before it is written, so reads are taken from the
original tab-split list.  Printing and log-file writing (`prt_error_summary`,
`prt_line_detail`) are pure output and are not modelled; an exception escaping
the per-line boundary of `_read_gaf_nts` is modelled as an `Except.error`
(the source prints diagnostics and calls `sys.exit(1)` there, returning no
partial result).
-/

/-! ### Python string primitives -/

/-- Characters treated as whitespace by Python's `str.strip`/`str.rstrip` and
by the regex class `\s` (ASCII range; the GAF format is ASCII). -/
def isPySpace (c : Char) : Bool :=
  c = ' ' || c = '\t' || c = '\n' || c = '\r' || c = '\x0c' || c = '\x0b'

/-- The regex class `\w` (ASCII range). -/
def isWordChar (c : Char) : Bool :=
  c.isAlpha || c.isDigit || c = '_'

/-- The regex class `[\w\s-]` used by the GAF header pattern. -/
def isClassChar (c : Char) : Bool :=
  isWordChar c || isPySpace c || c = '-'

/-- Models `Python str.split(sep)` on character lists: splitting an empty list yields
one empty chunk, like `"".split(sep) == ['']`. -/
def splitCharsOn (sep : Char) : List Char → List (List Char)
  | [] => [[]]
  | c :: rest =>
    if c = sep then
      [] :: splitCharsOn sep rest
    else
      match splitCharsOn sep rest with
      | [] => [[c]]
      | chunk :: chunks => (c :: chunk) :: chunks

/-- Python `s.split(sep)` for a one-character separator. -/
def pySplit (s : String) (sep : Char) : List String :=
  (splitCharsOn sep s.data).map String.mk

/-- Python `s.strip()`. -/
def pyStrip (s : String) : String :=
  String.mk (((s.data.dropWhile isPySpace).reverse.dropWhile isPySpace).reverse)

/-- Python `s.rstrip()`. -/
def pyRstrip (s : String) : String :=
  String.mk ((s.data.reverse.dropWhile isPySpace).reverse)

/-- Python `s.lower()` (ASCII range, which covers GAF content). -/
def pyLower (s : String) : String :=
  String.mk (s.data.map Char.toLower)

/-- Python `s[a:]` (character slicing, non-negative index). -/
def pyDrop (s : String) (n : Nat) : String :=
  String.mk (s.data.drop n)

/-- Python `s[:b]` (character slicing, non-negative index). -/
def pyTake (s : String) (n : Nat) : String :=
  String.mk (s.data.take n)

/-- Python `s[a:b]` (character slicing, non-negative indices). -/
def pySlice (s : String) (a b : Nat) : String :=
  pyTake (pyDrop s a) (b - a)

/-- Python exceptions relevant to the reader. -/
inductive PyErr where
  | indexError
  | keyError
  | valueError
  | typeError
  | attributeError
deriving DecidableEq

/-- Decimal digits to a natural number. -/
def digitsToNat (l : List Char) : Nat :=
  l.foldl (fun a c => a * 10 + (c.toNat - 48)) 0

/-- Python `int(s)`: strip whitespace, optional sign, then decimal digits;
anything else raises `ValueError`.  (Digit-group underscores are not modelled;
they do not occur in GAF taxon fields.) -/
def pyInt (s : String) : Except PyErr Int :=
  match (pyStrip s).data with
  | '-' :: ds =>
    if ds ≠ [] && ds.all Char.isDigit then .ok (-(digitsToNat ds : Int))
    else .error .valueError
  | '+' :: ds =>
    if ds ≠ [] && ds.all Char.isDigit then .ok (digitsToNat ds : Int)
    else .error .valueError
  | ds =>
    if ds ≠ [] && ds.all Char.isDigit then .ok (digitsToNat ds : Int)
    else .error .valueError

/-- Python `l[i]` for a non-negative index: `IndexError` when out of range. -/
def listGet {α : Type} (l : List α) (i : Nat) : Except PyErr α :=
  match l.get? i with
  | some v => .ok v
  | none => .error .indexError

/-! ### Field values

A parsed GAF field is either still a raw string or one of the coerced shapes
produced by `GafData.get_gafvals`. -/

/-- A Python value sitting in one slot of a (parsed or raw) GAF record. -/
inductive PyVal where
  /-- a raw string field -/
  | str (s : String)
  /-- a set of strings (from `_get_set` / `_get_qualifier`) -/
  | strset (s : Finset String)
  /-- the taxon list of integers (from `_do_taxons`) -/
  | taxons (l : List Int)
  /-- a `datetime.date`, carried as its YYYYMMDD numeral -/
  | date (n : Nat)
  /-- the opaque structured value of the extension sub-parser -/
  | ext (s : String)
deriving DecidableEq

/-- Is this value a raw string?  (Used to state what stays uncoerced.) -/
def PyVal.isStr : PyVal → Bool
  | .str _ => true
  | _ => false

/-- Is this value a set of strings? -/
def PyVal.isStrset : PyVal → Bool
  | .strset _ => true
  | _ => false

/-- Python `len(v)`: strings, sets and lists have a length; `len` of a date or
of the opaque extension value raises `TypeError`. -/
def pyLen : PyVal → Except PyErr Nat
  | .str s => .ok s.data.length
  | .strset s => .ok s.card
  | .taxons l => .ok l.length
  | .date _ => .error .typeError
  | .ext _ => .error .typeError

/-- Python truthiness of a field value.  `datetime.date` objects are always
truthy; the opaque extension value is modelled as truthy. -/
def pyBool : PyVal → Bool
  | .str s => !s.data.isEmpty
  | .strset s => s.card != 0
  | .taxons l => !l.isEmpty
  | .date _ => true
  | .ext _ => true

/-! ### Field coercion (`GafData` static methods and tables) -/

/-- Models `GafData._get_qualifier(val)`: empty string gives the empty set; otherwise
split on `|`, lower-case each token, replace a token whose lower-casing is the
negation word `not` by the canonical `NOT`, and collect into a set (the
source's loop `quals.add(...)` builds exactly this finite set). -/
def gafGetQualifier (val : String) : Finset String :=
  if val = "" then ∅
  else ((pySplit val '|').map
    (fun v => let v' := pyLower v; if v' = "not" then "NOT" else v')).toFinset

/-- Models `GafData._get_set(val)`: `set(val.split('|')) if val else set()`. -/
def gafGetSet (val : String) : Finset String :=
  if val = "" then ∅ else (pySplit val '|').toFinset

/-- Models `GafData._get_list(val)`: `val.split('|') if val else []`. -/
def gafGetList (val : String) : List String :=
  if val = "" then [] else pySplit val '|'

/-- Models `GafData.aspect2ns`: the dict `{'P':'BP', 'F':'MF', 'C':'CC'}` as an
association list. -/
def aspect2ns : List (String × String) :=
  [("P", "BP"), ("F", "MF"), ("C", "CC")]

/-- Python dict subscription `d[k]`: `KeyError` when the key is absent. -/
def dictGet (d : List (String × String)) (k : String) : Except PyErr String :=
  match d.find? (fun p => p.1 = k) with
  | some p => .ok p.2
  | none => .error .keyError

/-- The first comprehension of `GafData._do_taxons`:
`[v.split(':')[1] for v in taxons]`.  The subscription `[1]` raises
`IndexError` on any token without a colon — in particular on an empty token. -/
def taxonSegs : List String → Except PyErr (List String)
  | [] => .ok []
  | v :: rest =>
    match (pySplit v ':').get? 1 with
    | none => .error .indexError
    | some s => (taxonSegs rest).map (fun l => s :: l)

/-- The second comprehension of `GafData._do_taxons`:
`[int(s) for s in taxons_str if s]` — skip empty strings, convert the rest
with `int` (which may raise `ValueError`). -/
def taxonInts : List String → Except PyErr (List Int)
  | [] => .ok []
  | s :: rest =>
    if s = "" then taxonInts rest
    else
      match pyInt s with
      | .error e => .error e
      | .ok n => (taxonInts rest).map (fun l => n :: l)

/-- Models `GafData._do_taxons(taxon_str)`: split the raw field on `|`, take
`v.split(':')[1]` of every token, then `int` every non-empty remainder. -/
def doTaxons (taxon_str : String) : Except PyErr (List Int) :=
  match taxonSegs (gafGetList taxon_str) with
  | .error e => .error e
  | .ok taxons_str => taxonInts taxons_str

/-- Modelled from the spec: `AnnoReaderBase.get_date_yyyymmdd` (aliased
`GET_DATE_YYYYMMDD` in the source) lives outside this repository's source
tree.  The spec says: `parse_date(raw)`: 8-digit YYYYMMDD literal gives a
calendar date; malformed input is fatal for that line.  The date is carried as
its 8-digit numeral. -/
def getDateYyyymmdd (s : String) : Except PyErr Nat :=
  if s.data.length = 8 && s.data.all Char.isDigit then .ok (digitsToNat s.data)
  else .error .valueError

/-- Modelled from the spec: `get_extensions` (from
`goatools.anno.extensions.factory`) lives outside this repository's source
tree.  The spec treats it as an opaque sub-parser "invoked with the raw field
string and returning a structured value"; it is modelled as the opaque wrapper
of the raw string. -/
def getExtensions (s : String) : PyVal :=
  PyVal.ext s

/-! ### The record schema (`GafData` class tables and `__init__`) -/

/-- Models `GafData.spec_req1`: indices of the required quantity-1 columns. -/
def spec_req1 : List Nat := [0, 1, 2, 4, 6, 8, 11, 13, 14]

/-- Models `GafData.req_str`: the required-column markers used by the line-detail
report. -/
def req_str : List String :=
  ["REQ", "REQ", "REQ", "", "REQ", "REQ", "REQ", "", "REQ", "", "",
   "REQ", "REQ", "REQ", "REQ", "", ""]

/-- Models `GafData.gafhdr`: the 15 base column names. -/
def gafhdr : List String :=
  ["DB", "DB_ID", "DB_Symbol", "Qualifier", "GO_ID", "DB_Reference",
   "Evidence_Code", "With_From", "NS", "DB_Name", "DB_Synonym", "DB_Type",
   "Taxon", "Date", "Assigned_By"]

/-- Models `GafData.gafhdr2`: the two extra columns of the 2.x formats. -/
def gafhdr2 : List String :=
  ["Extension", "Gene_Product_Form_ID"]

/-- Models `GafData.gaf_columns`: version string to column list. -/
def gaf_columns (ver : String) : Option (List String) :=
  if ver = "2.1" then some (gafhdr ++ gafhdr2)
  else if ver = "2.0" then some (gafhdr ++ gafhdr2)
  else if ver = "1.0" then some gafhdr
  else none

/-- Models `GafData.gaf_numcol`: expected column counts per version.  The source
defines this table but never consults it. -/
def gaf_numcol (ver : String) : Option Nat :=
  if ver = "2.1" then some 17
  else if ver = "2.0" then some 17
  else if ver = "1.0" then some 15
  else none

/-- One entry of `illegal_lines`: `(line-number-or-minus-one, message)`.  The
formatted message strings of the source are carried as a datatype recording
the format's arguments. -/
inductive ErrMsg where
  /-- Models `"FIELD({F}): MIN QUANTITY({Q}) WASN'T MET: {V}"` -/
  | minQty (field : String) (qty_min : Nat) (vals : PyVal)
  /-- Models `"FIELD({F}): MAX QUANTITY({Q}) EXCEEDED: {V}\n{NT}"` -/
  | maxQty (field : String) (qty_max : Nat) (vals : PyVal) (nt : List PyVal)
  /-- Models `"**ERROR: UNEXPECTED REQUIRED VAL({V}) FOR COL({R}):{H}: "` -/
  | qty1Val (v : PyVal) (col : Nat) (hdr : String)
  /-- Models `"{H0}({DB}) {H1}({ID})\n"` -/
  | qty1Ids (h0 : String) (db : PyVal) (h1 : String) (id : PyVal)
  /-- Models `"**{I}) TAXON: {NT}"` -/
  | badTaxon (idx : Nat) (nt : List PyVal)
deriving DecidableEq

/-- The mutable state of one `GafData` instance. -/
structure GafDataState where
  ver : String
  is_long : Bool
  flds : List String
  req1 : List Nat
  /-- illegal GAF lines that are ignored: `(lnum, raw line)` -/
  ignored : List (Nat × String)
  /-- Models `cx.defaultdict(list)`: category name to its list of entries, in key
  insertion order -/
  illegal_lines : List (String × List (Int × ErrMsg))
deriving DecidableEq

/-- Models `GafData.__init__(ver, allow_missing_symbol)`.  `ver` is the captured
header version, still `None` when no version line was seen (`ver[0]` then
raises `TypeError`; on an empty string it raises `IndexError`; an unknown
version raises `KeyError` at `gaf_columns[ver]`). -/
def GafDataState.make (ver : Option String) (allow_missing_symbol : Bool) :
    Except PyErr GafDataState :=
  match ver with
  | none => .error .typeError
  | some v =>
    match v.data.head? with
    | none => .error .indexError
    | some c0 =>
      match gaf_columns v with
      | none => .error .keyError
      | some flds =>
        .ok { ver := v
              is_long := c0 = '2'
              flds := flds
              req1 := if !allow_missing_symbol then spec_req1
                      else spec_req1.filter (fun i => i ≠ 2)
              ignored := []
              illegal_lines := [] }

/-! ### The validation pass (`GafData.chk` and helpers)

`illegal_lines` is a `defaultdict(list)`; appending an entry creates the key
at the end of the insertion order when it is new.  Keys are only ever created
together with an append, so a key is present exactly when its list is
non-empty. -/

/-- Append one entry under a category key, `defaultdict(list)` style. -/
def dictAppend (d : List (String × List (Int × ErrMsg))) (k : String)
    (e : Int × ErrMsg) : List (String × List (Int × ErrMsg)) :=
  match d with
  | [] => [(k, [e])]
  | (k', l) :: rest =>
    if k' = k then (k', l ++ [e]) :: rest
    else (k', l) :: dictAppend rest k e

/-- A pending violation: category key plus the entry appended under it. -/
abbrev Entry := String × Int × ErrMsg

/-- Models `self.illegal_lines[cat].append(e)` on the state. -/
def appendEntry (st : GafDataState) (e : Entry) : GafDataState :=
  { st with illegal_lines := dictAppend st.illegal_lines e.1 e.2 }

/-- Append a batch of violations in order. -/
def appendAll (st : GafDataState) (es : List Entry) : GafDataState :=
  es.foldl appendEntry st

/-- Models `getattr(ntd, name)` on a namedtuple built from the column list `flds`:
the field's position in `flds` indexes the tuple. -/
def recAttr (flds : List String) (ntd : List PyVal) (name : String) :
    Except PyErr PyVal :=
  match flds.findIdx? (fun f => f = name) with
  | some i => listGet ntd i
  | none => .error .attributeError

/-- Models `GafData._chk_fld(ntd, name, qty_min=0, qty_max=None)`. -/
def chkFld (st : GafDataState) (ntd : List PyVal) (name : String)
    (qty_min : Nat) (qty_max : Option Nat) : Except PyErr GafDataState := do
  let vals ← recAttr st.flds ntd name
  let num_vals ← pyLen vals
  let st1 := if num_vals < qty_min then
      appendEntry st ("MIN QTY", (-1, .minQty name qty_min vals))
    else st
  match qty_max with
  | none => pure st1
  | some q =>
    pure (if num_vals > q then
        appendEntry st1 ("MAX QTY", (-1, .maxQty name q vals ntd))
      else st1)

/-- The loop body of `GafData._chk_qty_eq_1(flds)` over the remaining columns
of `self.req1`.  The format arguments (`self.gafhdr[col]`, `flds[0]`,
`flds[1]`) are evaluated before each append, so their `IndexError`s come
first; `"DB"` and `"DB_ID"` are `self.gafhdr[0]` and `self.gafhdr[1]`. -/
def chkQtyEq1 (st : GafDataState) (flds : List PyVal) :
    List Nat → Except PyErr GafDataState
  | [] => .ok st
  | col :: rest => do
    let v ← listGet flds col
    if pyBool v then chkQtyEq1 st flds rest
    else do
      let hdr ← listGet gafhdr col
      let st1 := appendEntry st ("QTY 1", (-1, .qty1Val v col hdr))
      let f0 ← listGet flds 0
      let f1 ← listGet flds 1
      let st2 := appendEntry st1 ("QTY 1", (-1, .qty1Ids "DB" f0 "DB_ID" f1))
      chkQtyEq1 st2 flds rest

/-- One iteration of the `for idx, ntd in enumerate(annotations)` loop of
`GafData.chk`: the six `_chk_fld` calls, `_chk_qty_eq_1(list(ntd))`, and the
taxon-length check (`not ntd.Taxon or len(ntd.Taxon) not in {1, 2}`,
short-circuited like the source).  The commented-out `_chk_qualifier` call of
the source is omitted. -/
def chkRec (st : GafDataState) (idx : Nat) (ntd : List PyVal) :
    Except PyErr GafDataState := do
  let st ← chkFld st ntd "Qualifier" 0 none
  let st ← chkFld st ntd "DB_Reference" 1 none
  let st ← chkFld st ntd "With_From" 0 none
  let st ← chkFld st ntd "DB_Name" 0 (some 1)
  let st ← chkFld st ntd "DB_Synonym" 0 none
  let st ← chkFld st ntd "Taxon" 1 (some 2)
  let st ← chkQtyEq1 st ntd st.req1
  let taxon ← recAttr st.flds ntd "Taxon"
  let bad ←
    if pyBool taxon = false then pure true
    else do
      let n ← pyLen taxon
      pure (!(n == 1 || n == 2))
  pure (if bad then
      appendEntry st ("BAD TAXON", ((idx : Int), .badTaxon idx ntd))
    else st)

/-- The enumerate loop of `GafData.chk`. -/
def chkLoop (st : GafDataState) : Nat → List (List PyVal) →
    Except PyErr GafDataState
  | _, [] => .ok st
  | idx, ntd :: rest =>
    match chkRec st idx ntd with
    | .error e => .error e
    | .ok st' => chkLoop st' (idx + 1) rest

/-- Models `GafData.chk(annotations, fout_err)`: run all per-record checks, then
return `not self.illegal_lines`.  The `prt_error_summary` call on a non-empty
`illegal_lines` only prints and writes the log file; it does not change the
state and is not modelled.  On a Python exception the mutated object survives
in the caller, but no result is returned; only the raised error is modelled. -/
def chk (st : GafDataState) (annotations : List (List PyVal)) :
    Except PyErr (GafDataState × Bool) :=
  match chkLoop st 0 annotations with
  | .error e => .error e
  | .ok st' => .ok (st', st'.illegal_lines.isEmpty)

/-! ### Per-line field extraction (`GafData.get_gafvals`) -/

/-- Models `GafData.get_gafvals(line)`: split the raw line on tabs and coerce the
designated columns, in the source's statement order (so the first failing
subscription or coercion determines the raised exception).  There is no
column-count test: a row that is too short raises `IndexError` at the first
out-of-range subscription, and the function never returns an empty list. -/
def getGafvals (is_long : Bool) (line : String) : Except PyErr (List PyVal) := do
  let flds := pySplit line '\t'
  let f3 ← listGet flds 3
  let v3 := PyVal.strset (gafGetQualifier f3)
  let f5 ← listGet flds 5
  let v5 := PyVal.strset (gafGetSet f5)
  let f7 ← listGet flds 7
  let v7 := PyVal.strset (gafGetSet f7)
  let f8 ← listGet flds 8
  let ns ← dictGet aspect2ns f8
  let f9 ← listGet flds 9
  let v9 := PyVal.strset (gafGetSet f9)
  let f10 ← listGet flds 10
  let v10 := PyVal.strset (gafGetSet f10)
  let f12 ← listGet flds 12
  let taxons ← doTaxons f12
  let f13 ← listGet flds 13
  let date ← getDateYyyymmdd f13
  let base := ((((((((flds.map PyVal.str).set 3 v3).set 5 v5).set 7 v7).set 8
      (PyVal.str ns)).set 9 v9).set 10 v10).set 12
      (PyVal.taxons taxons)).set 13 (PyVal.date date)
  if is_long then do
    let f15 ← listGet flds 15
    let f16 ← listGet flds 16
    pure ((base.set 15 (getExtensions f15)).set 16
      (PyVal.strset (gafGetSet (pyRstrip f16))))
  else do
    let f14 ← listGet flds 14
    pure (base.set 14 (PyVal.strset (gafGetSet (pyRstrip f14))))

/-! ### The header accumulator (`GafHdr`) -/

/-- Models `GafHdr.cmpline.search(line)` for the pattern `^!(\w[\w\s-]+:.*)$`:
a `!`, one word character, at least one `[\w\s-]` character, a colon, then
`.*$` (which stops before a final newline).  Because the character class
excludes `:`, only the first colon after the class run can match, so the run
before the colon is computed with `takeWhile`.  Returns group 1 on success. -/
def gafHdrMatch (line : String) : Option String :=
  match line.data with
  | b :: c0 :: rest =>
    if b = '!' && isWordChar c0 then
      let pre := rest.takeWhile (fun c => c ≠ ':')
      match rest.dropWhile (fun c => c ≠ ':') with
      | [] => none
      | _ :: after =>
        if pre ≠ [] && pre.all isClassChar then
          let tail := if after.getLast? = some '\n' then after.dropLast else after
          if tail.all (fun c => c ≠ '\n') then
            some (String.mk (c0 :: (pre ++ ':' :: tail)))
          else none
        else none
    else none
  | _ => none

/-- Models `GafHdr.chkaddhdr(line)`: store group 1 when the pattern matches. -/
def chkaddhdr (line : String) (st : List String) : List String :=
  match gafHdrMatch line with
  | some g => st ++ [g]
  | none => st

/-- Models `GafHdr.get_hdr()`: the stored lines newline-joined. -/
def getHdr (st : List String) : String :=
  String.intercalate "\n" st

/-! ### The read loop (`InitAssc._read_gaf_nts`)

The input file is the list of its lines as produced by Python file iteration
(each line keeps its trailing newline).  The local variables of the loop are
threaded explicitly: `ver` (captured version), the `GafHdr` state, `self.hdr`
(set at the header/data switch), `datobj` (`None` while reading the header;
`get_gafvals` and `ntobj_make` are bound exactly when it is), and `nts`.  An
exception reaching the `except` block prints diagnostics and exits the
process; this is the `Except.error` outcome, carrying no partial result. -/

/-- What `_read_gaf_nts` leaves behind on a non-fatal run: the returned
namedtuple list, `self.hdr`, and `self.datobj`. -/
structure ReadResult where
  nts : List (List PyVal)
  hdr : Option String
  datobj : Option GafDataState
deriving DecidableEq

/-- The `for lnum, line in enumerate(ifstrm, 1)` loop.  On a data line,
`gafvals` is truthy exactly when non-empty; `ntobj_make(gafvals)` (namedtuple
`_make`) raises `TypeError` unless the value count equals the column count. -/
def readLoop (hdr_only allow_missing_symbol : Bool) :
    Nat → Option String → List String → Option String → Option GafDataState →
    List (List PyVal) → List String → Except PyErr ReadResult
  | _, _, _, hdrSaved, datobj, nts, [] => .ok ⟨nts, hdrSaved, datobj⟩
  | lnum, ver, hdrst, hdrSaved, some dat, nts, line :: rest =>
    match getGafvals dat.is_long line with
    | .error e => .error e
    | .ok gafvals =>
      if gafvals.isEmpty then
        readLoop hdr_only allow_missing_symbol (lnum + 1) ver hdrst hdrSaved
          (some { dat with ignored := dat.ignored ++ [(lnum, line)] }) nts rest
      else
        if gafvals.length = dat.flds.length then
          readLoop hdr_only allow_missing_symbol (lnum + 1) ver hdrst hdrSaved
            (some dat) (nts ++ [gafvals]) rest
        else .error .typeError
  | lnum, ver, hdrst, hdrSaved, none, nts, line :: rest =>
    match line.data.head? with
    | none => .error .indexError
    | some c =>
      if c = '!' then
        let ver' :=
          if ver = none && pySlice line 1 13 = "gaf-version:" then
            some (pyStrip (pyDrop line 13))
          else ver
        readLoop hdr_only allow_missing_symbol (lnum + 1) ver'
          (chkaddhdr line hdrst) hdrSaved none nts rest
      else
        let hdrS := some (getHdr hdrst)
        if hdr_only then .ok ⟨nts, hdrS, none⟩
        else
          match GafDataState.make ver allow_missing_symbol with
          | .error e => .error e
          | .ok dat =>
            readLoop hdr_only allow_missing_symbol (lnum + 1) ver hdrst hdrS
              (some dat) nts rest

/-- Models `InitAssc._read_gaf_nts(fin_gaf, hdr_only, allow_missing_symbol)` over the
file's lines. -/
def readGafNts (lines : List String) (hdr_only allow_missing_symbol : Bool) :
    Except PyErr ReadResult :=
  readLoop hdr_only allow_missing_symbol 1 none [] none none [] lines

/-- The ignored-lines bucket visible after a non-fatal read (empty when the
data mode was never entered). -/
def ReadResult.ignoredLines (res : ReadResult) : List (Nat × String) :=
  match res.datobj with
  | some dat => dat.ignored
  | none => []

/-! ### Decidability of outcome equality (for concrete evaluations) -/

instance {ε α : Type} [DecidableEq ε] [DecidableEq α] :
    DecidableEq (Except ε α) := fun x y =>
  match x, y with
  | .ok a, .ok b =>
    if h : a = b then .isTrue (by rw [h]) else .isFalse (by simp [h])
  | .error a, .error b =>
    if h : a = b then .isTrue (by rw [h]) else .isFalse (by simp [h])
  | .ok _, .error _ => .isFalse (by simp)
  | .error _, .ok _ => .isFalse (by simp)

/-! ### Declarative form of the header key pattern -/

/-- A line the header pattern `^!(\w[\w\s-]+:.*)$` accepts, stated by
decomposition: a `!`, a word character, a non-empty run of `[\w\s-]`
characters, a colon, and a remainder containing no newline other than a
final one. -/
def HdrKeyLine (line : String) : Prop :=
  ∃ c0 m rest, line.data = '!' :: c0 :: (m ++ ':' :: rest) ∧
    isWordChar c0 = true ∧ m ≠ [] ∧ m.all isClassChar = true ∧
    ((if rest.getLast? = some '\n' then rest.dropLast else rest).all
      (fun c => c ≠ '\n')) = true

/-! ### Concrete instances used by the claims -/

/-- The fresh `GafData` instance for version 2.1,
`allow_missing_symbol=False`. -/
def gafData21 : GafDataState :=
  { ver := "2.1", is_long := true, flds := gafhdr ++ gafhdr2,
    req1 := spec_req1, ignored := [], illegal_lines := [] }

/-- A well-formed 15-column version-1.0 data line (with its newline). -/
def line10 : String :=
  "SGD\tS0001\tPHO3\t\tGO:0003993\tPMID:2676709\tIMP\t\tP\t\t\tprotein\ttaxon:9606\t20090118\tSGD\n"

/-- What `get_gafvals` produces for `line10` under version 1.0. -/
def vals10 : List PyVal :=
  [.str "SGD", .str "S0001", .str "PHO3", .strset ∅, .str "GO:0003993",
   .strset {"PMID:2676709"}, .str "IMP", .strset ∅, .str "BP", .strset ∅,
   .strset ∅, .str "protein", .taxons [9606], .date 20090118, .strset {"SGD"}]

/-- A well-formed 17-column version-2.x data line (with its newline). -/
def line21 : String :=
  "SGD\tS0001\tPHO3\t\tGO:0003993\tPMID:2676709\tIMP\t\tP\t\t\tprotein\ttaxon:9606\t20090118\tSGD\t\t\n"

/-- What `get_gafvals` produces for `line21` under version 2.x. -/
def vals21 : List PyVal :=
  [.str "SGD", .str "S0001", .str "PHO3", .strset ∅, .str "GO:0003993",
   .strset {"PMID:2676709"}, .str "IMP", .strset ∅, .str "BP", .strset ∅,
   .strset ∅, .str "protein", .taxons [9606], .date 20090118, .str "SGD",
   .ext "", .strset ∅]

/-- A 17-column line whose aspect column holds the unmapped code `X`. -/
def lineBadAspect : String :=
  "SGD\tS0001\tPHO3\t\tGO:0003993\tPMID:2676709\tIMP\t\tX\t\t\tprotein\ttaxon:9606\t20090118\tSGD\t\t\n"

/-- A version-2.1 file whose third line has 2 columns instead of 17 (the
second line is consumed by the header/data mode switch). -/
def linesShortRow : List String :=
  ["!gaf-version: 2.1\n", "x\n", "UniProtKB\tP12345\n"]

/-- A version-2.1 file with one well-formed data line after the mode-switch
line. -/
def linesGood : List String :=
  ["!gaf-version: 2.1\n", "x\n", line21]

/-- The result of reading `linesGood`. -/
def resGood : ReadResult :=
  { nts := [vals21], hdr := some "gaf-version: 2.1", datobj := some gafData21 }

/-- A parsed record whose taxon list has three entries. -/
def recTaxon3 : List PyVal :=
  [.str "UniProtKB", .str "P12345", .str "PHO3", .strset ∅, .str "GO:0003993",
   .strset {"PMID:2676709"}, .str "IMP", .strset ∅, .str "BP", .strset ∅,
   .strset ∅, .str "protein", .taxons [9606, 10116, 1], .date 20090118,
   .str "SGD", .ext "", .strset ∅]

/-- The state after validating `[recTaxon3]` once from fresh. -/
def stTaxon3Once : GafDataState :=
  { gafData21 with illegal_lines :=
      [("MAX QTY",
        [(-1, .maxQty "Taxon" 2 (.taxons [9606, 10116, 1]) recTaxon3)]),
       ("BAD TAXON", [((0 : Int), .badTaxon 0 recTaxon3)])] }

/-- The state after validating `[recTaxon3]` twice. -/
def stTaxon3Twice : GafDataState :=
  { gafData21 with illegal_lines :=
      [("MAX QTY",
        [(-1, .maxQty "Taxon" 2 (.taxons [9606, 10116, 1]) recTaxon3),
         (-1, .maxQty "Taxon" 2 (.taxons [9606, 10116, 1]) recTaxon3)]),
       ("BAD TAXON",
        [((0 : Int), .badTaxon 0 recTaxon3),
         ((0 : Int), .badTaxon 0 recTaxon3)])] }

/-- A parsed record whose taxon list is empty. -/
def recTaxon0 : List PyVal :=
  [.str "UniProtKB", .str "P12345", .str "PHO3", .strset ∅, .str "GO:0003993",
   .strset {"PMID:2676709"}, .str "IMP", .strset ∅, .str "BP", .strset ∅,
   .strset ∅, .str "protein", .taxons [], .date 20090118,
   .str "SGD", .ext "", .strset ∅]

/-- The state after validating `[recTaxon0]` once from fresh. -/
def stTaxon0 : GafDataState :=
  { gafData21 with illegal_lines :=
      [("MIN QTY", [(-1, .minQty "Taxon" 1 (.taxons []))]),
       ("BAD TAXON", [((0 : Int), .badTaxon 0 recTaxon0)])] }


/-! ### Analysis layer

The state mutation of the validation pass is separated, for proof purposes,
into a pure computation of the appended violation entries.  These definitions
are analysis artifacts, not part of the embedding of the source. -/

/-- The entries `_chk_fld` appends. -/
def fldViolations (flds : List String) (ntd : List PyVal) (name : String)
    (qty_min : Nat) (qty_max : Option Nat) : Except PyErr (List Entry) := do
  let vals ← recAttr flds ntd name
  let num_vals ← pyLen vals
  let es1 : List Entry :=
    if num_vals < qty_min then [("MIN QTY", (-1, .minQty name qty_min vals))]
    else []
  match qty_max with
  | none => pure es1
  | some q =>
    pure (if num_vals > q then
        es1 ++ [("MAX QTY", (-1, .maxQty name q vals ntd))]
      else es1)

/-- The entries `_chk_qty_eq_1` appends. -/
def qty1Violations (flds : List PyVal) : List Nat → Except PyErr (List Entry)
  | [] => .ok []
  | col :: rest => do
    let v ← listGet flds col
    if pyBool v then qty1Violations flds rest
    else do
      let hdr ← listGet gafhdr col
      let f0 ← listGet flds 0
      let f1 ← listGet flds 1
      let es ← qty1Violations flds rest
      pure (("QTY 1", (-1, .qty1Val v col hdr)) ::
            ("QTY 1", (-1, .qty1Ids "DB" f0 "DB_ID" f1)) :: es)

/-- The entries one `chk` loop iteration appends. -/
def recViolations (flds : List String) (req1 : List Nat) (idx : Nat)
    (ntd : List PyVal) : Except PyErr (List Entry) := do
  let e1 ← fldViolations flds ntd "Qualifier" 0 none
  let e2 ← fldViolations flds ntd "DB_Reference" 1 none
  let e3 ← fldViolations flds ntd "With_From" 0 none
  let e4 ← fldViolations flds ntd "DB_Name" 0 (some 1)
  let e5 ← fldViolations flds ntd "DB_Synonym" 0 none
  let e6 ← fldViolations flds ntd "Taxon" 1 (some 2)
  let e7 ← qty1Violations ntd req1
  let taxon ← recAttr flds ntd "Taxon"
  let bad ←
    if pyBool taxon = false then pure true
    else do
      let n ← pyLen taxon
      pure (!(n == 1 || n == 2))
  pure (e1 ++ e2 ++ e3 ++ e4 ++ e5 ++ e6 ++ e7 ++
    (if bad then [("BAD TAXON", ((idx : Int), .badTaxon idx ntd))] else []))

/-- The entries the whole `chk` loop appends, from a given start index. -/
def violationsLoop (flds : List String) (req1 : List Nat) :
    Nat → List (List PyVal) → Except PyErr (List Entry)
  | _, [] => .ok []
  | idx, ntd :: rest =>
    match recViolations flds req1 idx ntd with
    | .error e => .error e
    | .ok es =>
      match violationsLoop flds req1 (idx + 1) rest with
      | .error e => .error e
      | .ok es' => .ok (es ++ es')

/-! Counting entries per violation category. -/

/-- Total count of entries recorded under a category key. -/
def dictCount : List (String × List (Int × ErrMsg)) → String → Nat
  | [], _ => 0
  | (k, l) :: rest, c => (if k = c then l.length else 0) + dictCount rest c

/-- Number of violations a state has recorded under a category. -/
def illegalCount (st : GafDataState) (cat : String) : Nat :=
  dictCount st.illegal_lines cat

/-- The per-category counts, in key insertion order (a summary of
`illegal_lines` as reported by `prt_error_summary`). -/
def catCounts (st : GafDataState) : List (String × Nat) :=
  st.illegal_lines.map (fun p => (p.1, p.2.length))

/-- Number of pending entries for a category. -/
def entryCount : List Entry → String → Nat
  | [], _ => 0
  | e :: es, c => (if e.1 = c then 1 else 0) + entryCount es c

/-! Membership of recorded entries. -/

/-- All entries recorded under a category key. -/
def dictEntries : List (String × List (Int × ErrMsg)) → String →
    List (Int × ErrMsg)
  | [], _ => []
  | (k, l) :: rest, c => (if k = c then l else []) ++ dictEntries rest c

/-- The violations a state has recorded under a category. -/
def illegalEntries (st : GafDataState) (cat : String) : List (Int × ErrMsg) :=
  dictEntries st.illegal_lines cat

theorem exceptBind_ok_iff {ε α β : Type} {x : Except ε α} {f : α → Except ε β}
    {v : β} : (x >>= f) = .ok v ↔ ∃ a, x = .ok a ∧ f a = .ok v := by
  cases x <;> simp [Bind.bind, Except.bind]

theorem listGet_ok_iff {α : Type} {l : List α} {i : Nat} {v : α} :
    listGet l i = .ok v ↔ l.get? i = some v := by
  unfold listGet
  cases l.get? i <;> simp

theorem appendEntry_flds (st : GafDataState) (e : Entry) :
    (appendEntry st e).flds = st.flds := rfl

theorem appendEntry_req1 (st : GafDataState) (e : Entry) :
    (appendEntry st e).req1 = st.req1 := rfl

theorem appendAll_flds (st : GafDataState) (es : List Entry) :
    (appendAll st es).flds = st.flds := by
  induction es generalizing st with
  | nil => rfl
  | cons e es ih => simpa [appendAll, List.foldl_cons] using ih (appendEntry st e)

theorem appendAll_req1 (st : GafDataState) (es : List Entry) :
    (appendAll st es).req1 = st.req1 := by
  induction es generalizing st with
  | nil => rfl
  | cons e es ih => simpa [appendAll, List.foldl_cons] using ih (appendEntry st e)

theorem appendAll_nil (st : GafDataState) : appendAll st [] = st := rfl

theorem appendAll_cons (st : GafDataState) (e : Entry) (es : List Entry) :
    appendAll st (e :: es) = appendAll (appendEntry st e) es := rfl

theorem appendAll_append (st : GafDataState) (es es' : List Entry) :
    appendAll st (es ++ es') = appendAll (appendAll st es) es' :=
  List.foldl_append _ _ _ _

theorem chkFld_eq (st : GafDataState) (ntd : List PyVal) (name : String)
    (qty_min : Nat) (qty_max : Option Nat) :
    chkFld st ntd name qty_min qty_max =
      (fldViolations st.flds ntd name qty_min qty_max).map (appendAll st) := by
  unfold chkFld fldViolations
  cases hA : recAttr st.flds ntd name with
  | error e => simp [Bind.bind, Except.bind, Except.map, hA]
  | ok vals =>
    cases hL : pyLen vals with
    | error e => simp [Bind.bind, Except.bind, Except.map, hA, hL]
    | ok n =>
      cases qty_max with
      | none =>
        simp only [Bind.bind, Except.bind, Except.map, hA, hL, pure, Except.pure]
        split <;> simp [appendAll, appendEntry]
      | some q =>
        simp only [Bind.bind, Except.bind, Except.map, hA, hL, pure, Except.pure]
        split <;> split <;> simp [appendAll]

theorem chkQtyEq1_eq (flds : List PyVal) :
    ∀ (cols : List Nat) (st : GafDataState),
      chkQtyEq1 st flds cols = (qty1Violations flds cols).map (appendAll st) := by
  intro cols
  induction cols with
  | nil => intro st; rfl
  | cons col rest ih =>
    intro st
    unfold chkQtyEq1 qty1Violations
    cases listGet flds col with
    | error e => rfl
    | ok v =>
      dsimp [Bind.bind, Except.bind]
      by_cases hb : pyBool v
      · simp only [hb, if_true, ih]
      · simp only [hb, if_false]
        cases listGet gafhdr col with
        | error e => rfl
        | ok hdr =>
          dsimp [Bind.bind, Except.bind]
          cases listGet flds 0 with
          | error e => rfl
          | ok f0 =>
            dsimp [Bind.bind, Except.bind]
            cases listGet flds 1 with
            | error e => rfl
            | ok f1 =>
              dsimp [Bind.bind, Except.bind]
              rw [ih]
              cases qty1Violations flds rest with
              | error e => rfl
              | ok es => rfl

theorem appendEntry_ite (S : GafDataState) (c : Prop) [Decidable c] (e : Entry) :
    (if c then appendEntry S e else S) = appendAll S (if c then [e] else []) := by
  split <;> simp [appendAll, appendEntry]

theorem chkRec_eq (st : GafDataState) (idx : Nat) (ntd : List PyVal) :
    chkRec st idx ntd = (recViolations st.flds st.req1 idx ntd).map (appendAll st) := by
  unfold chkRec recViolations
  rw [chkFld_eq]
  cases h1 : fldViolations st.flds ntd "Qualifier" 0 none with
  | error e => simp [Bind.bind, Except.bind, Except.map]
  | ok es1 =>
    simp only [Except.map, Bind.bind, Except.bind]
    rw [chkFld_eq, appendAll_flds]
    cases h2 : fldViolations st.flds ntd "DB_Reference" 1 none with
    | error e => simp [Except.map]
    | ok es2 =>
      simp only [Except.map]
      rw [chkFld_eq]
      simp only [appendAll_flds]
      cases h3 : fldViolations st.flds ntd "With_From" 0 none with
      | error e => simp [Except.map]
      | ok es3 =>
        simp only [Except.map]
        rw [chkFld_eq]
        simp only [appendAll_flds]
        cases h4 : fldViolations st.flds ntd "DB_Name" 0 (some 1) with
        | error e => simp [Except.map]
        | ok es4 =>
          simp only [Except.map]
          rw [chkFld_eq]
          simp only [appendAll_flds]
          cases h5 : fldViolations st.flds ntd "DB_Synonym" 0 none with
          | error e => simp [Except.map]
          | ok es5 =>
            simp only [Except.map]
            rw [chkFld_eq]
            simp only [appendAll_flds]
            cases h6 : fldViolations st.flds ntd "Taxon" 1 (some 2) with
            | error e => simp [Except.map]
            | ok es6 =>
              simp only [Except.map]
              rw [chkQtyEq1_eq]
              simp only [appendAll_req1]
              cases h7 : qty1Violations ntd st.req1 with
              | error e => simp [Except.map]
              | ok es7 =>
                simp only [Except.map]
                simp only [appendAll_flds]
                cases hT : recAttr st.flds ntd "Taxon" with
                | error e => simp [Except.map]
                | ok taxon =>
                  simp only [Except.map, Bind.bind, Except.bind]
                  by_cases hb : pyBool taxon = false
                  · rw [if_pos hb, if_pos hb]
                    simp only [pure, Except.pure, Except.bind]
                    rw [appendEntry_ite]
                    simp [appendAll_append]
                  · rw [if_neg hb, if_neg hb]
                    cases hL : pyLen taxon with
                    | error e => simp [Except.map, Bind.bind, Except.bind, hL]
                    | ok n =>
                      simp only [Bind.bind, Except.bind, hL, pure, Except.pure,
                        Except.map]
                      rw [appendEntry_ite]
                      simp [appendAll_append]

theorem chkLoop_eq :
    ∀ (anns : List (List PyVal)) (idx : Nat) (st : GafDataState),
      chkLoop st idx anns =
        (violationsLoop st.flds st.req1 idx anns).map (appendAll st) := by
  intro anns
  induction anns with
  | nil => intro idx st; rfl
  | cons ntd rest ih =>
    intro idx st
    unfold chkLoop violationsLoop
    rw [chkRec_eq]
    cases hR : recViolations st.flds st.req1 idx ntd with
    | error e => rfl
    | ok es =>
      simp only [Except.map]
      rw [ih]
      simp only [appendAll_flds, appendAll_req1]
      cases hV : violationsLoop st.flds st.req1 (idx + 1) rest with
      | error e => rfl
      | ok es' =>
        simp only [Except.map, appendAll_append]

/-- Rewrites `chk` as the pure violation computation followed by the state appends. -/
theorem chk_eq (st : GafDataState) (anns : List (List PyVal)) :
    chk st anns =
      match violationsLoop st.flds st.req1 0 anns with
      | .error e => .error e
      | .ok es =>
        .ok (appendAll st es, (appendAll st es).illegal_lines.isEmpty) := by
  unfold chk
  rw [chkLoop_eq]
  cases violationsLoop st.flds st.req1 0 anns <;> rfl

theorem dictCount_dictAppend (d : List (String × List (Int × ErrMsg)))
    (k : String) (e : Int × ErrMsg) (c : String) :
    dictCount (dictAppend d k e) c = dictCount d c + (if k = c then 1 else 0) := by
  induction d with
  | nil => simp [dictAppend, dictCount]
  | cons p rest ih =>
    obtain ⟨k', l⟩ := p
    by_cases hk : k' = k
    · subst hk
      simp only [dictAppend, if_pos rfl, dictCount]
      split <;> simp <;> omega
    · simp only [dictAppend, if_neg hk, dictCount, ih]
      omega

theorem illegalCount_appendEntry (st : GafDataState) (e : Entry) (c : String) :
    illegalCount (appendEntry st e) c =
      illegalCount st c + (if e.1 = c then 1 else 0) := by
  unfold illegalCount appendEntry
  exact dictCount_dictAppend _ _ _ _

theorem illegalCount_appendAll (st : GafDataState) (es : List Entry)
    (c : String) :
    illegalCount (appendAll st es) c = illegalCount st c + entryCount es c := by
  induction es generalizing st with
  | nil => simp [appendAll, entryCount]
  | cons e es ih =>
    rw [appendAll_cons, ih, illegalCount_appendEntry, entryCount]
    omega

theorem dictEntries_dictAppend_mem {d : List (String × List (Int × ErrMsg))}
    {c : String} {a : Int × ErrMsg} (k : String) (e : Int × ErrMsg)
    (h : a ∈ dictEntries d c) : a ∈ dictEntries (dictAppend d k e) c := by
  induction d with
  | nil => simp [dictEntries] at h
  | cons p rest ih =>
    obtain ⟨k', l⟩ := p
    by_cases hk : k' = k
    · subst hk
      simp only [dictAppend, if_pos rfl, dictEntries] at h ⊢
      rcases List.mem_append.1 h with h1 | h2
      · split at h1
        · exact List.mem_append.2 (.inl (by
            split
            · exact List.mem_append.2 (.inl h1)
            · simp_all))
        · simp at h1
      · exact List.mem_append.2 (.inr h2)
    · simp only [dictAppend, if_neg hk, dictEntries] at h ⊢
      rcases List.mem_append.1 h with h1 | h2
      · exact List.mem_append.2 (.inl h1)
      · exact List.mem_append.2 (.inr (ih h2))

theorem dictEntries_dictAppend_self {d : List (String × List (Int × ErrMsg))}
    (k : String) (e : Int × ErrMsg) :
    e ∈ dictEntries (dictAppend d k e) k := by
  induction d with
  | nil => simp [dictAppend, dictEntries]
  | cons p rest ih =>
    obtain ⟨k', l⟩ := p
    by_cases hk : k' = k
    · subst hk
      simp [dictAppend, dictEntries]
    · simp only [dictAppend, if_neg hk, dictEntries]
      exact List.mem_append.2 (.inr ih)

theorem illegalEntries_appendEntry_mem {st : GafDataState} {c : String}
    {a : Int × ErrMsg} (e : Entry) (h : a ∈ illegalEntries st c) :
    a ∈ illegalEntries (appendEntry st e) c :=
  dictEntries_dictAppend_mem e.1 e.2 h

theorem illegalEntries_appendAll_mem {st : GafDataState} {c : String}
    {a : Int × ErrMsg} (es : List Entry) (h : a ∈ illegalEntries st c) :
    a ∈ illegalEntries (appendAll st es) c := by
  induction es generalizing st with
  | nil => exact h
  | cons e es ih => exact ih (illegalEntries_appendEntry_mem e h)

theorem illegalEntries_appendAll_of_mem {st : GafDataState} {es : List Entry}
    {e : Entry} (h : e ∈ es) :
    e.2 ∈ illegalEntries (appendAll st es) e.1 := by
  induction es generalizing st with
  | nil => simp at h
  | cons e' es ih =>
    rcases List.mem_cons.1 h with h1 | h1
    · subst h1
      rw [appendAll_cons]
      exact illegalEntries_appendAll_mem es
        (dictEntries_dictAppend_self e.1 e.2)
    · rw [appendAll_cons]
      exact ih h1

theorem illegalEntries_ne_nil {st : GafDataState} {c : String}
    {a : Int × ErrMsg} (h : a ∈ illegalEntries st c) :
    st.illegal_lines ≠ [] := by
  intro hnil
  rw [illegalEntries, hnil] at h
  simp [dictEntries] at h

theorem violationsLoop_get {flds : List String} {req1 : List Nat} :
    ∀ (anns : List (List PyVal)) (idx j : Nat) (es : List Entry)
      (r : List PyVal),
      violationsLoop flds req1 idx anns = .ok es →
      anns.get? j = some r →
      ∃ esr, recViolations flds req1 (idx + j) r = .ok esr ∧
        ∀ a ∈ esr, a ∈ es := by
  intro anns
  induction anns with
  | nil => intro idx j es r h hg; simp at hg
  | cons ntd rest ih =>
    intro idx j es r h hg
    unfold violationsLoop at h
    cases hR : recViolations flds req1 idx ntd with
    | error e => rw [hR] at h; exact absurd h (by simp)
    | ok es0 =>
      rw [hR] at h
      cases hV : violationsLoop flds req1 (idx + 1) rest with
      | error e => rw [hV] at h; exact absurd h (by simp)
      | ok es1 =>
        rw [hV] at h
        simp only [Except.ok.injEq] at h
        subst h
        cases j with
        | zero =>
          simp only [List.get?] at hg
          injection hg with hg
          subst hg
          exact ⟨es0, by simpa using hR,
            fun a ha => List.mem_append.2 (.inl ha)⟩
        | succ j =>
          simp only [List.get?] at hg
          obtain ⟨esr, hrec, hsub⟩ := ih (idx + 1) j es1 r hV hg
          refine ⟨esr, ?_, fun a ha => List.mem_append.2 (.inr (hsub a ha))⟩
          rw [show idx + (j + 1) = idx + 1 + j by omega]
          exact hrec

theorem recViolations_badTaxon {flds : List String} {req1 : List Nat}
    {idx : Nat} {ntd : List PyVal} {es : List Entry} {l : List Int}
    (hfld : flds.findIdx? (fun f => f = "Taxon") = some 12)
    (hok : recViolations flds req1 idx ntd = .ok es)
    (hT : ntd.get? 12 = some (.taxons l))
    (hl1 : l.length ≠ 1) (hl2 : l.length ≠ 2) :
    ("BAD TAXON", ((idx : Int), ErrMsg.badTaxon idx ntd)) ∈ es := by
  unfold recViolations at hok
  rw [exceptBind_ok_iff] at hok
  obtain ⟨es1, hx1, hok⟩ := hok
  rw [exceptBind_ok_iff] at hok
  obtain ⟨es2, hx2, hok⟩ := hok
  rw [exceptBind_ok_iff] at hok
  obtain ⟨es3, hx3, hok⟩ := hok
  rw [exceptBind_ok_iff] at hok
  obtain ⟨es4, hx4, hok⟩ := hok
  rw [exceptBind_ok_iff] at hok
  obtain ⟨es5, hx5, hok⟩ := hok
  rw [exceptBind_ok_iff] at hok
  obtain ⟨es6, hx6, hok⟩ := hok
  rw [exceptBind_ok_iff] at hok
  obtain ⟨es7, hx7, hok⟩ := hok
  dsimp only at hok
  rw [exceptBind_ok_iff] at hok
  obtain ⟨taxon, hx8, hok⟩ := hok
  unfold recAttr at hx8
  rw [hfld, listGet_ok_iff, hT] at hx8
  injection hx8 with hx8
  subst hx8
  cases l with
  | nil =>
    rw [if_pos (by simp [pyBool])] at hok
    simp only [Bind.bind, Except.bind, pure, Except.pure] at hok
    rw [if_pos trivial] at hok
    simp only [Except.ok.injEq] at hok
    subst hok
    simp [List.mem_append]
  | cons x xs =>
    rw [if_neg (by simp [pyBool])] at hok
    simp only [pyLen, Bind.bind, Except.bind, pure, Except.pure] at hok
    have hcond : ((x :: xs).length == 1 || (x :: xs).length == 2) = false := by
      rw [Bool.or_eq_false_iff]
      exact ⟨beq_eq_false_iff_ne.2 hl1, beq_eq_false_iff_ne.2 hl2⟩
    rw [hcond] at hok
    rw [if_pos (by simp)] at hok
    simp only [Except.ok.injEq] at hok
    subst hok
    simp [List.mem_append]

theorem get14_set {α : Type} {l : List α} {i : Nat} (a : α) (h : i ≠ 14) :
    (l.set i a).get? 14 = l.get? 14 :=
  List.get?_set_ne a l h

theorem get?_isSome_of_lt {α : Type} {l : List α} {n : Nat}
    (h : n < l.length) : (l.get? n).isSome := by
  rw [Option.isSome_iff_ne_none]
  intro hn
  rw [List.get?_eq_none] at hn
  omega

theorem option_map_const_any {α β : Type} {o : Option α} (v : β)
    (p : β → Bool) (ho : o.isSome) : ((fun _ => v) <$> o).any p = p v := by
  cases o with
  | none => simp at ho
  | some w => simp

theorem listGet_ok_lt {α : Type} {l : List α} {i : Nat} {v : α}
    (h : listGet l i = .ok v) : i < l.length := by
  rw [listGet_ok_iff] at h
  by_contra hlt
  rw [List.get?_eq_none.2 (Nat.le_of_not_lt hlt)] at h
  exact Option.noConfusion h

theorem getGafvals_long_14 {line : String} {vs : List PyVal}
    (h : getGafvals true line = .ok vs) :
    vs.get? 14 = ((pySplit line '\t').get? 14).map PyVal.str := by
  unfold getGafvals at h
  rw [exceptBind_ok_iff] at h; obtain ⟨f3, h3, h⟩ := h; try dsimp only at h
  rw [exceptBind_ok_iff] at h; obtain ⟨f5, h5, h⟩ := h; try dsimp only at h
  rw [exceptBind_ok_iff] at h; obtain ⟨f7, h7, h⟩ := h; try dsimp only at h
  rw [exceptBind_ok_iff] at h; obtain ⟨f8, h8, h⟩ := h; try dsimp only at h
  rw [exceptBind_ok_iff] at h; obtain ⟨ns, hns, h⟩ := h; try dsimp only at h
  rw [exceptBind_ok_iff] at h; obtain ⟨f9, h9, h⟩ := h; try dsimp only at h
  rw [exceptBind_ok_iff] at h; obtain ⟨f10, h10, h⟩ := h; try dsimp only at h
  rw [exceptBind_ok_iff] at h; obtain ⟨f12, h12, h⟩ := h; try dsimp only at h
  rw [exceptBind_ok_iff] at h; obtain ⟨tax, htax, h⟩ := h; try dsimp only at h
  rw [exceptBind_ok_iff] at h; obtain ⟨f13, h13, h⟩ := h; try dsimp only at h
  rw [exceptBind_ok_iff] at h; obtain ⟨dt, hdt, h⟩ := h; try dsimp only at h
  rw [if_pos rfl] at h
  rw [exceptBind_ok_iff] at h; obtain ⟨f15, h15, h⟩ := h; try dsimp only at h
  rw [exceptBind_ok_iff] at h; obtain ⟨f16, h16, h⟩ := h; try dsimp only at h
  simp only [pure, Except.pure, Except.ok.injEq] at h
  subst h
  rw [get14_set _ (by decide), get14_set _ (by decide), get14_set _ (by decide),
    get14_set _ (by decide), get14_set _ (by decide), get14_set _ (by decide),
    get14_set _ (by decide), get14_set _ (by decide), get14_set _ (by decide),
    get14_set _ (by decide), List.get?_map]

theorem getGafvals_short_14 {line : String} {vs : List PyVal}
    (h : getGafvals false line = .ok vs) :
    (vs.get? 14).any PyVal.isStrset = true := by
  unfold getGafvals at h
  rw [exceptBind_ok_iff] at h; obtain ⟨f3, h3, h⟩ := h; try dsimp only at h
  rw [exceptBind_ok_iff] at h; obtain ⟨f5, h5, h⟩ := h; try dsimp only at h
  rw [exceptBind_ok_iff] at h; obtain ⟨f7, h7, h⟩ := h; try dsimp only at h
  rw [exceptBind_ok_iff] at h; obtain ⟨f8, h8, h⟩ := h; try dsimp only at h
  rw [exceptBind_ok_iff] at h; obtain ⟨ns, hns, h⟩ := h; try dsimp only at h
  rw [exceptBind_ok_iff] at h; obtain ⟨f9, h9, h⟩ := h; try dsimp only at h
  rw [exceptBind_ok_iff] at h; obtain ⟨f10, h10, h⟩ := h; try dsimp only at h
  rw [exceptBind_ok_iff] at h; obtain ⟨f12, h12, h⟩ := h; try dsimp only at h
  rw [exceptBind_ok_iff] at h; obtain ⟨tax, htax, h⟩ := h; try dsimp only at h
  rw [exceptBind_ok_iff] at h; obtain ⟨f13, h13, h⟩ := h; try dsimp only at h
  rw [exceptBind_ok_iff] at h; obtain ⟨dt, hdt, h⟩ := h; try dsimp only at h
  rw [if_neg (by simp)] at h
  rw [exceptBind_ok_iff] at h; obtain ⟨f14, h14, h⟩ := h; try dsimp only at h
  simp only [pure, Except.pure, Except.ok.injEq] at h
  subst h
  have hlt : 14 < (pySplit line '\t').length := listGet_ok_lt h14
  rw [List.get?_set_eq, option_map_const_any _ _
    (get?_isSome_of_lt (by simp only [List.length_set, List.length_map]; exact hlt))]
  simp [PyVal.isStrset]

theorem getGafvals_ok_ne_nil {is_long : Bool} {line : String}
    {vs : List PyVal} (h : getGafvals is_long line = .ok vs) : vs ≠ [] := by
  unfold getGafvals at h
  rw [exceptBind_ok_iff] at h; obtain ⟨f3, h3, h⟩ := h; try dsimp only at h
  rw [exceptBind_ok_iff] at h; obtain ⟨f5, h5, h⟩ := h; try dsimp only at h
  rw [exceptBind_ok_iff] at h; obtain ⟨f7, h7, h⟩ := h; try dsimp only at h
  rw [exceptBind_ok_iff] at h; obtain ⟨f8, h8, h⟩ := h; try dsimp only at h
  rw [exceptBind_ok_iff] at h; obtain ⟨ns, hns, h⟩ := h; try dsimp only at h
  rw [exceptBind_ok_iff] at h; obtain ⟨f9, h9, h⟩ := h; try dsimp only at h
  rw [exceptBind_ok_iff] at h; obtain ⟨f10, h10, h⟩ := h; try dsimp only at h
  rw [exceptBind_ok_iff] at h; obtain ⟨f12, h12, h⟩ := h; try dsimp only at h
  rw [exceptBind_ok_iff] at h; obtain ⟨tax, htax, h⟩ := h; try dsimp only at h
  rw [exceptBind_ok_iff] at h; obtain ⟨f13, h13, h⟩ := h; try dsimp only at h
  rw [exceptBind_ok_iff] at h; obtain ⟨dt, hdt, h⟩ := h; try dsimp only at h
  have hlt : 3 < (pySplit line '\t').length := listGet_ok_lt h3
  cases is_long with
  | true =>
    rw [if_pos rfl] at h
    rw [exceptBind_ok_iff] at h; obtain ⟨f15, h15, h⟩ := h; try dsimp only at h
    rw [exceptBind_ok_iff] at h; obtain ⟨f16, h16, h⟩ := h; try dsimp only at h
    simp only [pure, Except.pure, Except.ok.injEq] at h
    subst h
    intro hnil
    have := congrArg List.length hnil
    simp only [List.length_set, List.length_map, List.length_nil] at this
    omega
  | false =>
    rw [if_neg (by simp)] at h
    rw [exceptBind_ok_iff] at h; obtain ⟨f14, h14, h⟩ := h; try dsimp only at h
    simp only [pure, Except.pure, Except.ok.injEq] at h
    subst h
    intro hnil
    have := congrArg List.length hnil
    simp only [List.length_set, List.length_map, List.length_nil] at this
    omega

theorem make_ignored {ver : Option String} {ams : Bool} {st : GafDataState}
    (h : GafDataState.make ver ams = .ok st) : st.ignored = [] := by
  unfold GafDataState.make at h
  cases ver with
  | none => simp at h
  | some v =>
    dsimp only at h
    cases hc : v.data.head? with
    | none => rw [hc] at h; simp at h
    | some c0 =>
      rw [hc] at h
      cases hg : gaf_columns v with
      | none => rw [hg] at h; simp at h
      | some flds =>
        rw [hg] at h
        simp only [Except.ok.injEq] at h
        subst h
        rfl

theorem readLoop_ignored {ho ams : Bool} :
    ∀ (lines : List String) (lnum : Nat) (ver : Option String)
      (hdrst : List String) (hdrSaved : Option String)
      (datobj : Option GafDataState) (nts : List (List PyVal))
      (res : ReadResult),
      (∀ d, datobj = some d → d.ignored = []) →
      readLoop ho ams lnum ver hdrst hdrSaved datobj nts lines = .ok res →
      res.ignoredLines = [] := by
  intro lines
  induction lines with
  | nil =>
    intro lnum ver hdrst hdrSaved datobj nts res hinv h
    cases datobj with
    | none =>
      simp only [readLoop, Except.ok.injEq] at h
      subst h
      rfl
    | some dat =>
      simp only [readLoop, Except.ok.injEq] at h
      subst h
      simpa [ReadResult.ignoredLines] using hinv dat rfl
  | cons line rest ih =>
    intro lnum ver hdrst hdrSaved datobj nts res hinv h
    cases datobj with
    | some dat =>
      simp only [readLoop] at h
      cases hg : getGafvals dat.is_long line with
      | error e => rw [hg] at h; exact absurd h (by simp)
      | ok gafvals =>
        rw [hg] at h
        dsimp only at h
        have hne : gafvals ≠ [] := getGafvals_ok_ne_nil hg
        rw [if_neg (by simpa [List.isEmpty_iff] using hne)] at h
        by_cases hlen : gafvals.length = dat.flds.length
        · rw [if_pos hlen] at h
          exact ih _ _ _ _ _ _ _ hinv h
        · rw [if_neg hlen] at h
          exact absurd h (by simp)
    | none =>
      simp only [readLoop] at h
      cases hh : line.data.head? with
      | none => rw [hh] at h; exact absurd h (by simp)
      | some c =>
        rw [hh] at h
        dsimp only at h
        by_cases hc : c = '!'
        · rw [if_pos hc] at h
          exact ih _ _ _ _ _ _ _ (by intro d hd; cases hd) h
        · rw [if_neg hc] at h
          by_cases hho : ho = true
          · rw [if_pos hho] at h
            simp only [Except.ok.injEq] at h
            subst h
            rfl
          · rw [if_neg hho] at h
            cases hm : GafDataState.make ver ams with
            | error e => rw [hm] at h; exact absurd h (by simp)
            | ok dat =>
              rw [hm] at h
              refine ih _ _ _ _ _ _ _ ?_ h
              intro d hd
              injection hd with hd
              subst hd
              exact make_ignored hm

theorem taxonSegs_of_mem_empty :
    ∀ (l : List String), "" ∈ l → taxonSegs l = .error .indexError := by
  intro l
  induction l with
  | nil => intro h; simp at h
  | cons v rest ih =>
    intro h
    by_cases hv : v = ""
    · subst hv
      rfl
    · unfold taxonSegs
      have hrest : "" ∈ rest := by
        rcases List.mem_cons.1 h with h1 | h1
        · exact absurd h1.symm hv
        · exact h1
      rw [ih hrest]
      cases (pySplit v ':').get? 1 <;> rfl

theorem takeWhile_all_append {p : Char → Bool} :
    ∀ (m : List Char) (x : Char) (t : List Char),
      (∀ c ∈ m, p c = true) → p x = false →
      (m ++ x :: t).takeWhile p = m := by
  intro m
  induction m with
  | nil =>
    intro x t _ hx
    simp [List.takeWhile, hx]
  | cons a m ih =>
    intro x t hall hx
    have ha : p a = true := hall a (List.mem_cons_self a m)
    simp only [List.cons_append, List.takeWhile, ha, List.append_eq]
    rw [ih x t (fun c hc => hall c (List.mem_cons_of_mem a hc)) hx]

theorem dropWhile_all_append {p : Char → Bool} :
    ∀ (m : List Char) (x : Char) (t : List Char),
      (∀ c ∈ m, p c = true) → p x = false →
      (m ++ x :: t).dropWhile p = x :: t := by
  intro m
  induction m with
  | nil =>
    intro x t _ hx
    simp [List.dropWhile, hx]
  | cons a m ih =>
    intro x t hall hx
    have ha : p a = true := hall a (List.mem_cons_self a m)
    simp only [List.cons_append, List.dropWhile, ha, List.append_eq]
    exact ih x t (fun c hc => hall c (List.mem_cons_of_mem a hc)) hx

theorem dropWhile_head_false {p : Char → Bool} {l : List Char} {x : Char}
    {t : List Char} (h : l.dropWhile p = x :: t) : p x = false := by
  have := List.head?_dropWhile_not p l
  rw [h] at this
  exact this

theorem isClassChar_colon : isClassChar ':' = false := by decide

/-- A successful header match characterized by decomposition: the line has
the key shape and the stored group is the line after `!`, without its final
newline. -/
theorem gafHdrMatch_some {line : String} {g : String}
    (h : gafHdrMatch line = some g) :
    HdrKeyLine line ∧ (line = "!" ++ g ∨ line = "!" ++ g ++ "\n") := by
  unfold gafHdrMatch at h
  cases hd : line.data with
  | nil => rw [hd] at h; exact absurd h (by simp)
  | cons b l1 =>
    cases l1 with
    | nil => rw [hd] at h; exact absurd h (by simp)
    | cons c0 rest =>
      rw [hd] at h
      dsimp only at h
      by_cases hb : (b = '!' && isWordChar c0) = true
      · rw [if_pos hb] at h
        cases hdrop : rest.dropWhile (fun c => c ≠ ':') with
        | nil => rw [hdrop] at h; exact absurd h (by simp)
        | cons d after =>
          rw [hdrop] at h
          dsimp only at h
          by_cases hpre : (rest.takeWhile (fun c => c ≠ ':') ≠ [] &&
              (rest.takeWhile (fun c => c ≠ ':')).all isClassChar) = true
          · rw [if_pos hpre] at h
            by_cases htl : ((if after.getLast? = some '\n' then after.dropLast
                else after).all (fun c => c ≠ '\n')) = true
            · rw [if_pos htl] at h
              simp only [Option.some.injEq] at h
              obtain ⟨hb1, hw⟩ := Bool.and_eq_true_iff.1 hb
              have hb2 : b = '!' := by simpa using hb1
              obtain ⟨hpre1, hpre2⟩ := Bool.and_eq_true_iff.1 hpre
              have hd2 : d = ':' := by
                have := dropWhile_head_false hdrop
                simpa using this
              have hsplit : rest = rest.takeWhile (fun c => c ≠ ':') ++ d :: after := by
                conv_lhs => rw [← List.takeWhile_append_dropWhile
                  (fun c => c ≠ ':') rest]
                rw [hdrop]
              subst hb2 hd2
              constructor
              · refine ⟨c0, rest.takeWhile (fun c => c ≠ ':'), after, ?_, hw,
                  by simpa using hpre1, hpre2, htl⟩
                rw [hd]
                conv_lhs => rw [hsplit]
              · by_cases hnl : after.getLast? = some '\n'
                · right
                  apply String.ext
                  have hafter : after.dropLast ++ ['\n'] = after :=
                    List.dropLast_append_getLast? '\n' hnl
                  rw [String.data_append, String.data_append, ← h, hd]
                  conv_lhs => rw [hsplit, ← hafter]
                  rw [if_pos hnl]
                  show '!' :: c0 :: (rest.takeWhile (fun c => c ≠ ':') ++
                      ':' :: (after.dropLast ++ ['\n'])) =
                    ['!'] ++ (c0 :: (rest.takeWhile (fun c => c ≠ ':') ++
                      ':' :: after.dropLast)) ++ ['\n']
                  simp
                · left
                  apply String.ext
                  rw [String.data_append, ← h, hd]
                  conv_lhs => rw [hsplit]
                  rw [if_neg hnl]
                  show '!' :: c0 :: (rest.takeWhile (fun c => c ≠ ':') ++
                      ':' :: after) =
                    ['!'] ++ (c0 :: (rest.takeWhile (fun c => c ≠ ':') ++
                      ':' :: after))
                  simp
            · rw [if_neg htl] at h; exact absurd h (by simp)
          · rw [if_neg hpre] at h; exact absurd h (by simp)
      · rw [if_neg hb] at h; exact absurd h (by simp)

theorem gafHdrMatch_of_HdrKeyLine {line : String} (h : HdrKeyLine line) :
    ∃ g, gafHdrMatch line = some g := by
  obtain ⟨c0, m, rest, hdata, hw, hm, hcls, htail⟩ := h
  unfold gafHdrMatch
  rw [hdata]
  dsimp only
  rw [if_pos (by simp [hw])]
  have hallm : ∀ c ∈ m, (fun c => decide (c ≠ ':')) c = true := by
    intro c hc
    have hcl : isClassChar c = true := List.all_eq_true.1 hcls c hc
    simp only [decide_eq_true_eq]
    intro hcc
    subst hcc
    rw [isClassChar_colon] at hcl
    exact Bool.noConfusion hcl
  have hx : (fun c => decide (c ≠ ':')) ':' = false := by simp
  rw [takeWhile_all_append m ':' rest hallm hx,
    dropWhile_all_append m ':' rest hallm hx]
  dsimp only
  rw [if_pos (by simp only [Bool.and_eq_true, decide_eq_true_eq]; exact ⟨hm, hcls⟩)]
  rw [if_pos htail]
  exact ⟨_, rfl⟩

/-! ### Claim theorems -/

/-- C1: the spec requires a data line with the wrong tab-split column count,
or any per-line coercion failure, to be appended to the ignored-lines bucket
(line number and raw text) with the read continuing.  The code does not do
this: `get_gafvals` never checks the column count (its `gaf_numcol`
expected-count table is never consulted), so a 2-column line raises
`IndexError` at `flds[3]`; the exception escapes the per-line boundary, and
the whole read aborts (`sys.exit(1)`), the line never reaching
`datobj.ignored`.  This theorem evaluates the embedded code at the failing
input. -/
theorem c1_short_line_fatal :
    getGafvals true "UniProtKB\tP12345\n" = .error .indexError ∧
    readGafNts linesShortRow false false = .error .indexError ∧
    gaf_numcol "2.1" = some 17 :=
  ⟨by decide, by decide, by decide⟩

/-- C3: as claimed, `_do_taxons` maps `taxon:9606` to `[9606]` and
`taxon:9606|taxon:10116` to `[9606, 10116]`, skips (without a placeholder) a
token whose part after the colon is empty, and keeps only the segment between
the first and second colon of each token.  Amended against the claim: a
`|`-token that is itself empty is not skipped — `''.split(':')[1]` raises
`IndexError`, so the whole coercion fails on any field with an empty token. -/
theorem c3_do_taxons :
    doTaxons "taxon:9606" = .ok [9606] ∧
    doTaxons "taxon:9606|taxon:10116" = .ok [9606, 10116] ∧
    doTaxons "taxon:9606|taxon:" = .ok [9606] ∧
    doTaxons "taxon:9606:8" = .ok [9606] ∧
    (∀ s, "" ∈ gafGetList s → doTaxons s = .error .indexError) := by
  refine ⟨by decide, by decide, by decide, by decide, ?_⟩
  intro s hs
  unfold doTaxons
  rw [taxonSegs_of_mem_empty (gafGetList s) hs]

theorem c3_witness :
    "" ∈ gafGetList "|9" ∧ doTaxons "|9" = .error .indexError :=
  ⟨by decide, c3_do_taxons.2.2.2.2 "|9" (by decide)⟩

/-- C3 counterexample: a trailing empty token makes the taxon coercion raise
`IndexError` instead of being skipped, refuting "skips empty tokens entirely
... without failing". -/
theorem c3_counterexample :
    doTaxons "taxon:9606|" = .error .indexError := by decide

/-- C7: the aspect mapping sends `P`, `F`, `C` to `BP`, `MF`, `CC`; every
other key raises `KeyError` (no silent default), and `get_gafvals` propagates
the failure for a line with an unmapped aspect code, so no record is built
from it. -/
theorem c7_aspect_mapping :
    dictGet aspect2ns "P" = .ok "BP" ∧
    dictGet aspect2ns "F" = .ok "MF" ∧
    dictGet aspect2ns "C" = .ok "CC" ∧
    (∀ s, s ≠ "P" → s ≠ "F" → s ≠ "C" →
      dictGet aspect2ns s = .error .keyError) ∧
    getGafvals true lineBadAspect = .error .keyError := by
  refine ⟨by decide, by decide, by decide, ?_, by decide⟩
  intro s h1 h2 h3
  unfold dictGet aspect2ns
  rw [List.find?_cons_of_neg _ (by simpa using Ne.symm h1),
    List.find?_cons_of_neg _ (by simpa using Ne.symm h2),
    List.find?_cons_of_neg _ (by simpa using Ne.symm h3)]
  rfl

theorem c7_witness :
    ("X" : String) ≠ "P" ∧ dictGet aspect2ns "X" = .error .keyError :=
  ⟨by decide,
    c7_aspect_mapping.2.2.2.1 "X" (by decide) (by decide) (by decide)⟩

/-- C8: the qualifier coercion maps the empty string to the empty set and
otherwise splits on `|`, lower-cases every token, canonicalizes the token
whose lower-casing is `not` to `NOT`, and collects the results into a set;
membership in the result is exactly described by the token list, and
`_get_qualifier "NOT|part_of" = {"NOT", "part_of"}`. -/
theorem c8_qualifiers :
    gafGetQualifier "" = ∅ ∧
    gafGetQualifier "NOT|part_of" = ({"NOT", "part_of"} : Finset String) ∧
    (∀ val x, val ≠ "" →
      (x ∈ gafGetQualifier val ↔
        ∃ t ∈ pySplit val '|',
          x = (if pyLower t = "not" then "NOT" else pyLower t))) := by
  refine ⟨rfl, by decide, ?_⟩
  intro val x hval
  unfold gafGetQualifier
  rw [if_neg hval, List.mem_toFinset, List.mem_map]
  constructor
  · rintro ⟨t, ht, hx⟩
    exact ⟨t, ht, hx.symm⟩
  · rintro ⟨t, ht, hx⟩
    exact ⟨t, ht, hx.symm⟩

theorem c8_witness :
    ("Not" : String) ≠ "" ∧
    ("NOT" ∈ gafGetQualifier "Not" ↔
      ∃ t ∈ pySplit "Not" '|',
        "NOT" = (if pyLower t = "not" then "NOT" else pyLower t)) :=
  ⟨by decide, c8_qualifiers.2.2 "Not" "NOT" (by decide)⟩

/-- C10: the per-line extractor either raises (fatal for the whole read) or
returns the non-empty tab-split field list, so the branch appending to the
ignored-lines bucket is unreachable, and every non-fatal read returns with an
empty ignored bucket. -/
theorem c10_no_ignored :
    (∀ is_long line vs, getGafvals is_long line = .ok vs → vs ≠ []) ∧
    (∀ lines ho ams res, readGafNts lines ho ams = .ok res →
      res.ignoredLines = []) := by
  refine ⟨fun _ _ _ h => getGafvals_ok_ne_nil h, ?_⟩
  intro lines ho ams res h
  exact readLoop_ignored lines 1 none [] none none [] res
    (by intro d hd; cases hd) h

theorem c10_witness :
    getGafvals true line21 = .ok vals21 ∧ vals21 ≠ [] ∧
    readGafNts linesGood false false = .ok resGood ∧
    resGood.ignoredLines = [] :=
  ⟨by decide, c10_no_ignored.1 true line21 vals21 (by decide), by decide,
    c10_no_ignored.2 linesGood false false resGood (by decide)⟩

/-- C2 (amended): the validation pass does not mutate the records (it returns
only the updated diagnostic state and a flag), but it carries state — the
violations of a run are appended to the instance's `illegal_lines`, which
persists across calls.  Re-running `chk` on the same collection therefore
re-adds every violation: starting from a fresh instance, after two runs every
per-category count is double the count after one run, so the counts of two
runs agree with one run only when the collection has no violations. -/
theorem c2_chk_rerun_doubles {st st1 st2 : GafDataState}
    {anns : List (List PyVal)} {b1 b2 : Bool}
    (h0 : st.illegal_lines = [])
    (h1 : chk st anns = .ok (st1, b1))
    (h2 : chk st1 anns = .ok (st2, b2)) :
    ∀ cat, illegalCount st2 cat = 2 * illegalCount st1 cat := by
  rw [chk_eq] at h1
  cases hV : violationsLoop st.flds st.req1 0 anns with
  | error e => rw [hV] at h1; exact absurd h1 (by simp)
  | ok es =>
    rw [hV] at h1
    dsimp only at h1
    simp only [Except.ok.injEq, Prod.mk.injEq] at h1
    obtain ⟨hst1, hb1⟩ := h1
    subst hst1
    rw [chk_eq] at h2
    rw [appendAll_flds, appendAll_req1, hV] at h2
    dsimp only at h2
    simp only [Except.ok.injEq, Prod.mk.injEq] at h2
    obtain ⟨hst2, hb2⟩ := h2
    subst hst2
    intro cat
    rw [illegalCount_appendAll, illegalCount_appendAll]
    have hz : illegalCount st cat = 0 := by
      unfold illegalCount
      rw [h0]
      rfl
    omega

theorem c2_witness :
    gafData21.illegal_lines = [] ∧
    chk gafData21 [recTaxon3] = .ok (stTaxon3Once, false) ∧
    chk stTaxon3Once [recTaxon3] = .ok (stTaxon3Twice, false) ∧
    illegalCount stTaxon3Twice "MAX QTY" =
      2 * illegalCount stTaxon3Once "MAX QTY" :=
  ⟨rfl, by decide, by decide,
    @c2_chk_rerun_doubles gafData21 stTaxon3Once stTaxon3Twice [recTaxon3]
      false false rfl (by decide) (by decide) "MAX QTY"⟩

/-- C2 counterexample: validating a record with a 3-entry taxon list gives
per-category counts (MAX QTY 1, BAD TAXON 1) after one run but (2, 2) after
running `chk` twice on the same collection, refuting the claimed idempotence:
the hidden `illegal_lines` state doubles every count. -/
theorem c2_counterexample :
    chk gafData21 [recTaxon3] = .ok (stTaxon3Once, false) ∧
    catCounts stTaxon3Once = [("MAX QTY", 1), ("BAD TAXON", 1)] ∧
    chk stTaxon3Once [recTaxon3] = .ok (stTaxon3Twice, false) ∧
    catCounts stTaxon3Twice = [("MAX QTY", 2), ("BAD TAXON", 2)] :=
  ⟨by decide, by decide, by decide, by decide⟩

/-- C6: on a fresh instance, `chk` returns `True` exactly when its run
recorded no violation (the flag is the emptiness of `illegal_lines`), and a
record whose taxon list has length other than 1 or 2 is recorded under the
`BAD TAXON` category with its record index; `chk` returns only the
diagnostic state and the flag, so the immutable record collection passed in
is untouched — the validation error does not remove the record. -/
theorem c6_chk_bad_taxon {anns : List (List PyVal)} {st : GafDataState}
    {b : Bool} (hrun : chk gafData21 anns = .ok (st, b)) :
    (b = true ↔ st.illegal_lines = []) ∧
    (∀ idx r l, anns.get? idx = some r →
      r.get? 12 = some (PyVal.taxons l) →
      l.length ≠ 1 → l.length ≠ 2 →
      ((idx : Int), ErrMsg.badTaxon idx r) ∈ illegalEntries st "BAD TAXON" ∧
        b = false) := by
  rw [chk_eq] at hrun
  cases hV : violationsLoop gafData21.flds gafData21.req1 0 anns with
  | error e => rw [hV] at hrun; exact absurd hrun (by simp)
  | ok es =>
    rw [hV] at hrun
    dsimp only at hrun
    simp only [Except.ok.injEq, Prod.mk.injEq] at hrun
    obtain ⟨hst, hb⟩ := hrun
    subst hst
    constructor
    · rw [← hb]
      exact List.isEmpty_iff
    · intro idx r l hg hT hl1 hl2
      obtain ⟨esr, hrec, hsub⟩ := violationsLoop_get anns 0 idx es r hV hg
      rw [Nat.zero_add] at hrec
      have hmem := recViolations_badTaxon (by decide) hrec hT hl1 hl2
      have hinst := @illegalEntries_appendAll_of_mem gafData21 es
        ("BAD TAXON", ((idx : Int), ErrMsg.badTaxon idx r)) (hsub _ hmem)
      refine ⟨hinst, ?_⟩
      have hne := illegalEntries_ne_nil hinst
      rw [← hb]
      simpa [List.isEmpty_iff] using hne

theorem c6_witness :
    chk gafData21 [recTaxon0] = .ok (stTaxon0, false) ∧
    ((0 : Int), ErrMsg.badTaxon 0 recTaxon0) ∈
      illegalEntries stTaxon0 "BAD TAXON" :=
  ⟨by decide,
    ((@c6_chk_bad_taxon [recTaxon0] stTaxon0 false (by decide)).2 0 recTaxon0
      [] rfl (by decide) (by decide) (by decide)).1⟩

/-- C4 (amended): the header accumulator stores a `!`-line exactly when the
line matches the full key pattern `!(\w[\w\s-]+:.*)$` — a word character, a
non-empty run of word/space/hyphen characters, and a colon must follow the
`!`; a stored line is kept with the `!` (and a final newline) stripped, and
`header_text` newline-joins the stored lines.  A comment line beginning with
`!` but lacking the key shape (e.g. free text without a colon) is discarded,
not stored. -/
theorem c4_header_store :
    (∀ line st, (∃ g, chkaddhdr line st = st ++ [g]) ↔ HdrKeyLine line) ∧
    (∀ line st, HdrKeyLine line →
      ∃ g, chkaddhdr line st = st ++ [g] ∧
        (line = "!" ++ g ∨ line = "!" ++ g ++ "\n")) ∧
    chkaddhdr "!gaf-version: 2.1\n" [] = ["gaf-version: 2.1"] ∧
    getHdr ["gaf-version: 2.1", "date: 2019-01-01"] =
      "gaf-version: 2.1\ndate: 2019-01-01" := by
  have hstore : ∀ line st, HdrKeyLine line →
      ∃ g, chkaddhdr line st = st ++ [g] ∧
        (line = "!" ++ g ∨ line = "!" ++ g ++ "\n") := by
    intro line st h
    obtain ⟨g, hg⟩ := gafHdrMatch_of_HdrKeyLine h
    have hshape := (gafHdrMatch_some hg).2
    exact ⟨g, by unfold chkaddhdr; rw [hg], hshape⟩
  refine ⟨?_, hstore, by decide, by decide⟩
  intro line st
  constructor
  · rintro ⟨g, hg⟩
    unfold chkaddhdr at hg
    cases hm : gafHdrMatch line with
    | none =>
      rw [hm] at hg
      have := congrArg List.length hg
      simp at this
    | some g2 => exact (gafHdrMatch_some hm).1
  · intro h
    obtain ⟨g, hg, _⟩ := hstore line st h
    exact ⟨g, hg⟩

theorem c4_witness :
    HdrKeyLine "!gaf-version: 2.1\n" ∧
    (∃ g, chkaddhdr "!gaf-version: 2.1\n" [] = [] ++ [g] ∧
      ("!gaf-version: 2.1\n" = "!" ++ g ∨
       "!gaf-version: 2.1\n" = "!" ++ g ++ "\n")) := by
  have hk : HdrKeyLine "!gaf-version: 2.1\n" :=
    ⟨'g', "af-version".data, " 2.1\n".data, by decide, by decide, by decide,
      by decide, by decide⟩
  exact ⟨hk, c4_header_store.2.1 "!gaf-version: 2.1\n" [] hk⟩

/-- C4 counterexample: a free-text comment line beginning with `!` but
without a colon is observed by `chkaddhdr` yet not stored, so after the
2-line header (version line, free-text comment) the header text holds only
the version line — refuting "for every line beginning with the comment
prefix ... the remainder is stored" and the 2-line-header consequence. -/
theorem c4_counterexample :
    chkaddhdr "!a free-text comment\n" [] = [] ∧
    getHdr (chkaddhdr "!a free-text comment\n"
      (chkaddhdr "!gaf-version: 2.1\n" [])) = "gaf-version: 2.1" :=
  ⟨by decide, by decide⟩

/-- C5 (amended): under versions 2.0/2.1 the Assigned_By column (index 14)
is left as the raw string from the tab-split line, but under version 1.0 the
legacy branch applies the set coercion to the rstripped column 14, so every
record parsed under version 1.0 holds a set of strings there, not a plain
string. -/
theorem c5_assigned_by :
    (∀ line vs, getGafvals true line = .ok vs →
      vs.get? 14 = ((pySplit line '\t').get? 14).map PyVal.str) ∧
    (∀ line vs, getGafvals false line = .ok vs →
      (vs.get? 14).any PyVal.isStrset = true) :=
  ⟨fun _ _ h => getGafvals_long_14 h, fun _ _ h => getGafvals_short_14 h⟩

theorem c5_witness :
    getGafvals true line21 = .ok vals21 ∧
    vals21.get? 14 = ((pySplit line21 '\t').get? 14).map PyVal.str ∧
    getGafvals false line10 = .ok vals10 ∧
    (vals10.get? 14).any PyVal.isStrset = true :=
  ⟨by decide, c5_assigned_by.1 line21 vals21 (by decide), by decide,
    c5_assigned_by.2 line10 vals10 (by decide)⟩

/-- C5 counterexample: a well-formed version-1.0 line parses with a set of
strings — not a plain string — in the Assigned_By slot (index 14), refuting
"the Assigned_By attribute of every record parsed under version 1.0 is a
string, not a set". -/
theorem c5_counterexample :
    getGafvals false line10 = .ok vals10 ∧
    vals10.get? 14 = some (PyVal.strset {"SGD"}) ∧
    PyVal.isStr (PyVal.strset {"SGD"}) = false :=
  ⟨by decide, by decide, rfl⟩

/-- C9: version 1.0 selects the 15 base columns, versions 2.0 and 2.1 the
base columns plus the 2 extension columns; the required-quantity-1 index set
is the fixed `spec_req1` with the symbol index 2 removed exactly when
`allow_missing_symbol` is true; any other version string raises at
construction, which aborts the whole read. -/
theorem c9_schema_versions :
    (∀ ams, GafDataState.make (some "1.0") ams = .ok
      { ver := "1.0", is_long := false, flds := gafhdr,
        req1 := if !ams then spec_req1 else spec_req1.filter (fun i => i ≠ 2),
        ignored := [], illegal_lines := [] }) ∧
    (∀ ams, GafDataState.make (some "2.0") ams = .ok
      { ver := "2.0", is_long := true, flds := gafhdr ++ gafhdr2,
        req1 := if !ams then spec_req1 else spec_req1.filter (fun i => i ≠ 2),
        ignored := [], illegal_lines := [] }) ∧
    (∀ ams, GafDataState.make (some "2.1") ams = .ok
      { ver := "2.1", is_long := true, flds := gafhdr ++ gafhdr2,
        req1 := if !ams then spec_req1 else spec_req1.filter (fun i => i ≠ 2),
        ignored := [], illegal_lines := [] }) ∧
    gafhdr.length = 15 ∧ (gafhdr ++ gafhdr2).length = 17 ∧
    (2 ∈ spec_req1 ∧ 2 ∉ spec_req1.filter (fun i => i ≠ 2)) ∧
    (∀ v ams, v ≠ "1.0" → v ≠ "2.0" → v ≠ "2.1" →
      ∃ e, GafDataState.make (some v) ams = .error e) ∧
    readGafNts ["!gaf-version: 3.0\n", "x\n"] false false =
      .error .keyError := by
  refine ⟨?_, ?_, ?_, by decide, by decide, by decide, ?_, by decide⟩
  · intro ams; cases ams <;> decide
  · intro ams; cases ams <;> decide
  · intro ams; cases ams <;> decide
  · intro v ams h1 h2 h3
    unfold GafDataState.make
    dsimp only
    cases hc : v.data.head? with
    | none => exact ⟨.indexError, rfl⟩
    | some c0 =>
      have hg : gaf_columns v = none := by
        unfold gaf_columns
        rw [if_neg h3, if_neg h2, if_neg h1]
      exact ⟨.keyError, by dsimp only; rw [hg]⟩

theorem c9_witness :
    ("3.0" : String) ≠ "1.0" ∧
    (∃ e, GafDataState.make (some "3.0") true = .error e) ∧
    GafDataState.make (some "1.0") true = .ok
      { ver := "1.0", is_long := false, flds := gafhdr,
        req1 := if !true then spec_req1
          else spec_req1.filter (fun i => i ≠ 2),
        ignored := [], illegal_lines := [] } :=
  ⟨by decide,
    c9_schema_versions.2.2.2.2.2.2.1 "3.0" true (by decide) (by decide)
      (by decide),
    c9_schema_versions.1 true⟩
